import Mathlib

/-!
Verification development for the slack-bot repository.

The repository's core is an approval store (`src/approval-handler.js`, class
`ApprovalHandler`), a message analyzer (`analyzer.js`, class `MessageAnalyzer`),
and an interaction server (`src/interactive-server.js`, class
`InteractiveServer`) whose methods `processFeedbackMessage`, `handleApproval`
and `handleRejection` implement the ingestion and resolution paths.

The JavaScript is embedded shallowly:
  - JS `Map` values are association lists `List (String × Feedback)` where
    `jsMapSet` mirrors `Map.prototype.set` (update in place, else append) and
    `new Map(entries)` is `jsMapOfList`;
  - JS `Set` values are `List String` with `jsSetAdd` mirroring
    `Set.prototype.add` and `new Set(array)` as `jsSetOfList`;
  - JS objects holding feedback data are one record `Feedback`; fields a JS
    object may lack are `Option`s (or `""` where the source only tests string
    truthiness, since a JS string is falsy exactly when empty);
  - ISO timestamp strings produced from `Date` are modelled by their
    millisecond value (`Int`), threaded explicitly as a `now` argument;
  - remote calls (Claude, Slack, Notion) are inputs: their outcome for the
    message at hand is passed in (`ClaudeOutcome`, `IngestEnv`,
    `createTaskResult`), and fallible code returns `Option`/`Except`;
  - `JSON.parse` of the cleaned model reply is an external built-in; its
    result is modelled as `Option FeedbackJson` carried by `ClaudeOutcome`.
-/

namespace SlackBot

/-- A Slack message in the internal format built by `processFeedbackMessage`
and `SlackClient.getRecentMessages`. -/
structure Msg where
  text : String
  userId : String
  channelId : String
  channelName : String
  ts : String
  permalink : Option String := none
  deriving DecidableEq, Repr, Inhabited

/-- A feedback object as it flows through the bot: the analyzer's parsed JSON
fields plus the fields later spread onto it (`sourceName`, `messageSnippet`,
`originalMessage`, `messageLink`, `status`, timestamps).  `ftype` embeds the
JS field `type`. -/
structure Feedback where
  isFeedback : Bool := false
  ftype : String := ""
  title : String := ""
  description : String := ""
  priority : String := ""
  confidence : Int := 0
  sourceName : String := ""
  messageSnippet : String := ""
  originalMessage : Option Msg := none
  messageLink : Option String := none
  dueDate : Option String := none
  status : Option String := none
  createdAt : Option Int := none
  approvedAt : Option Int := none
  rejectedAt : Option Int := none
  deriving DecidableEq, Repr, Inhabited

/-- `Map.prototype.get`. -/
def jsMapGet : List (String × Feedback) → String → Option Feedback
  | [], _ => none
  | p :: rest, k => if p.1 = k then some p.2 else jsMapGet rest k

/-- `Map.prototype.set`: replaces the value at an existing key in place,
otherwise appends (JS `Map` preserves insertion order). -/
def jsMapSet : List (String × Feedback) → String → Feedback → List (String × Feedback)
  | [], k, v => [(k, v)]
  | p :: rest, k, v => if p.1 = k then (k, v) :: rest else p :: jsMapSet rest k v

/-- `Map.prototype.delete` (also the effect of deleting matching keys while
iterating `entries()`, as `clearOldApprovals` does). -/
def jsMapDelete : List (String × Feedback) → String → List (String × Feedback)
  | [], _ => []
  | p :: rest, k => if p.1 = k then jsMapDelete rest k else p :: jsMapDelete rest k

/-- `Set.prototype.has`. -/
def jsSetMem : List String → String → Bool
  | [], _ => false
  | y :: rest, x => if y = x then true else jsSetMem rest x

/-- `Set.prototype.add`. -/
def jsSetAdd (l : List String) (x : String) : List String :=
  if jsSetMem l x then l else l ++ [x]

/-- `new Map(entries)`: entries inserted left to right with `set` semantics. -/
def jsMapOfList (l : List (String × Feedback)) : List (String × Feedback) :=
  l.foldl (fun m p => jsMapSet m p.1 p.2) []

/-- `new Set(array)`: elements inserted left to right with `add` semantics. -/
def jsSetOfList (l : List String) : List String :=
  l.foldl jsSetAdd []

/-- The JSON snapshot `saveData` writes to `data/approvals.json`:
`Array.from(this.pendingApprovals.entries())`,
`Array.from(this.processedMessages)` and `lastSaved`. -/
structure Snapshot where
  pendingApprovals : List (String × Feedback)
  processedMessages : List String
  lastSaved : Int
  deriving DecidableEq, Repr

/-- The in-memory state of an `ApprovalHandler`, together with the persisted
snapshot (`none` while no snapshot file has been written). -/
structure HandlerState where
  pendingApprovals : List (String × Feedback) := []
  processedMessages : List String := []
  savedSnapshot : Option Snapshot := none
  deriving DecidableEq, Repr, Inhabited

/-- `ApprovalHandler.saveData`: rewrites the whole snapshot. -/
def saveData (s : HandlerState) (now : Int) : HandlerState :=
  { s with savedSnapshot := some ⟨s.pendingApprovals, s.processedMessages, now⟩ }

/-- `ApprovalHandler.loadData`: rebuilds the map and set from a snapshot;
with no snapshot file the constructor-made empty map and set remain. -/
def loadData : Option Snapshot → List (String × Feedback) × List String
  | none => ([], [])
  | some snap => (jsMapOfList snap.pendingApprovals, jsSetOfList snap.processedMessages)

/-- `ApprovalHandler.getPendingApproval`. -/
def getPendingApproval (s : HandlerState) (messageId : String) : Option Feedback :=
  jsMapGet s.pendingApprovals messageId

/-- `ApprovalHandler.addPendingApproval`: stores a spread copy
`{...feedback, createdAt, status: 'pending'}` and persists. -/
def addPendingApproval (s : HandlerState) (now : Int) (messageId : String)
    (feedback : Feedback) : HandlerState :=
  let stamped : Feedback := { feedback with createdAt := some now, status := some "pending" }
  saveData { s with pendingApprovals := jsMapSet s.pendingApprovals messageId stamped } now

/-- `ApprovalHandler.markAsProcessed`. -/
def markAsProcessed (s : HandlerState) (now : Int) (messageTs : String) : HandlerState :=
  saveData { s with processedMessages := jsSetAdd s.processedMessages messageTs } now

/-- `ApprovalHandler.isProcessed`. -/
def isProcessed (s : HandlerState) (messageTs : String) : Bool :=
  jsSetMem s.processedMessages messageTs

/-- Optional field overrides passed to `approveFeedback` (used by the review
modal); `{...approval, ...updates}` merges only the fields present. -/
structure Updates where
  title : Option String := none
  description : Option String := none
  deriving DecidableEq, Repr

/-- The spread `{...approval, ...updates}` for a possibly-null `updates`. -/
def mergeUpdates (f : Feedback) : Option Updates → Feedback
  | none => f
  | some u => { f with title := u.title.getD f.title,
                       description := u.description.getD f.description }

/-- `ApprovalHandler.approveFeedback`: `null` on a missing key, otherwise
merges overrides, stamps `status: 'approved'` and `approvedAt`, persists and
returns the updated record. -/
def approveFeedback (s : HandlerState) (now : Int) (messageId : String)
    (updates : Option Updates) : Option Feedback × HandlerState :=
  match jsMapGet s.pendingApprovals messageId with
  | none => (none, s)
  | some approval =>
    let approvedFeedback :=
      { mergeUpdates approval updates with status := some "approved", approvedAt := some now }
    (some approvedFeedback,
     saveData { s with pendingApprovals := jsMapSet s.pendingApprovals messageId approvedFeedback } now)

/-- `ApprovalHandler.rejectFeedback`. -/
def rejectFeedback (s : HandlerState) (now : Int) (messageId : String) :
    Option Feedback × HandlerState :=
  match jsMapGet s.pendingApprovals messageId with
  | none => (none, s)
  | some approval =>
    let rejectedFeedback :=
      { approval with status := some "rejected", rejectedAt := some now }
    (some rejectedFeedback,
     saveData { s with pendingApprovals := jsMapSet s.pendingApprovals messageId rejectedFeedback } now)

/-- `ApprovalHandler.removePendingApproval`. -/
def removePendingApproval (s : HandlerState) (now : Int) (messageId : String) : HandlerState :=
  saveData { s with pendingApprovals := jsMapDelete s.pendingApprovals messageId } now

/-- `new Date(value.createdAt).getTime() < cutoffTime`; a missing `createdAt`
gives `NaN`, for which the comparison is false. -/
def isOlderThan (cutoffTime : Int) (f : Feedback) : Bool :=
  match f.createdAt with
  | some t => t < cutoffTime
  | none => false

/-- `ApprovalHandler.clearOldApprovals(days)`: deletes every candidate whose
`createdAt` is strictly before `now - days*24*60*60*1000`, persists only if
something was deleted, and logs — but does not return — the removed count.
The second component is the JS return value: the function body has no
`return`, so it is always `undefined`, modelled as `none`. -/
def clearOldApprovals (s : HandlerState) (now : Int) (days : Int) :
    HandlerState × Option Int :=
  let cutoffTime := now - days * 24 * 60 * 60 * 1000
  let beforeSize := s.pendingApprovals.length
  let pending := s.pendingApprovals.filter (fun p => !(isOlderThan cutoffTime p.2))
  let afterSize := pending.length
  let s1 : HandlerState := { s with pendingApprovals := pending }
  (if beforeSize ≠ afterSize then saveData s1 now else s1, none)

/-- JS `String.prototype.trim` (whitespace stripped from both ends). -/
def jsTrim (s : String) : String :=
  String.mk (((s.data.dropWhile Char.isWhitespace).reverse.dropWhile Char.isWhitespace).reverse)

/-- JS `String.prototype.substring(0, n)`. -/
def jsTake (s : String) (n : Nat) : String :=
  String.mk (s.data.take n)

/-- JS `String.prototype.replace` with a plain-string pattern replaces only the
first occurrence; `messageTs.replace('.', '_')`. -/
def replaceFirstChar : List Char → Char → Char → List Char
  | [], _, _ => []
  | c :: rest, old, new => if c = old then new :: rest else c :: replaceFirstChar rest old new

/-- `messageTs.replace('.', '_')`. -/
def replaceDot (s : String) : String :=
  String.mk (replaceFirstChar s.data '.' '_')

/-- The structured judgment `JSON.parse` yields from the model reply
(the exact fields the analyzer prompt requests); `ftype` embeds `type`. -/
structure FeedbackJson where
  isFeedback : Bool
  ftype : String
  title : String
  description : String
  priority : String
  confidence : Int
  deriving DecidableEq, Repr

/-- Outcome of the `client.messages.create` call in
`MessageAnalyzer.analyzeFeedback` for one message:
  - `apiError`: the call (or anything in the `try` block) threw;
  - `reply isTextBlock parsed`: the call returned; `isTextBlock` is whether
    `content[0].type === 'text'` (otherwise `responseText` is `''`), and
    `parsed` is what `JSON.parse` (an external built-in) yields on the
    code-fence-stripped, trailing-comma-cleaned reply text — `none` when it
    throws, which the surrounding `catch` turns into `null`. -/
inductive ClaudeOutcome where
  | apiError
  | reply (isTextBlock : Bool) (parsed : Option FeedbackJson)
  deriving DecidableEq, Repr

/-- `MessageAnalyzer.analyzeFeedback(message, sourceName)`: returns the parsed
judgment spread with `sourceName` when `isFeedback && confidence >= 60`,
otherwise `null`; every failure inside is caught and becomes `null`. -/
def analyzeFeedback (outcome : ClaudeOutcome) (_message sourceName : String) :
    Option Feedback :=
  match outcome with
  | .apiError => none
  | .reply isTextBlock parsed =>
    match (if isTextBlock then parsed else none) with
    | none => none
    | some f =>
      if f.isFeedback = true ∧ 60 ≤ f.confidence then
        some { isFeedback := f.isFeedback, ftype := f.ftype, title := f.title,
               description := f.description, priority := f.priority,
               confidence := f.confidence, sourceName := sourceName }
      else none

/-- `MessageAnalyzer.analyzeBatch(messages)`: analyzes each message (the
model's behaviour on a given text is `claude`), keeping positive results
spread with `originalMessage` and a 100-character `messageSnippet`. -/
def analyzeBatch (claude : String → ClaudeOutcome) : List Msg → List Feedback
  | [] => []
  | msg :: rest =>
    match analyzeFeedback (claude msg.text) msg.text ("#" ++ msg.channelName) with
    | some r =>
      ({ r with originalMessage := some msg,
                messageSnippet :=
                  jsTake msg.text 100 ++ (if 100 < msg.text.length then "..." else "") })
        :: analyzeBatch claude rest
    | none => analyzeBatch claude rest

/-- A message attachment as inspected by `processFeedbackMessage`; the source
only tests string truthiness, so absent string fields are `""`.
`from_url_cid` is the capture group the `from_url` regular expression yields
(`none` when `from_url` is absent or does not match). -/
structure Attachment where
  text : String := ""
  title : String := ""
  fallback : String := ""
  author_name : String := ""
  from_url_cid : Option String := none
  deriving DecidableEq, Repr

/-- An inbound Slack message event, with the fields `processFeedbackMessage`
reads; absent string fields are `""`. -/
structure SlackEvent where
  text : String := ""
  attachments : List Attachment := []
  user : String := ""
  channel : String := ""
  ts : String := ""
  deriving DecidableEq, Repr

/-- Text flattening in `processFeedbackMessage`: `event.text || ''` plus, per
attachment, the first nonempty of `text`, `title`, `fallback`. -/
def flattenText (e : SlackEvent) : String :=
  e.attachments.foldl
    (fun acc a =>
      if a.text ≠ "" then acc ++ "\n" ++ a.text
      else if a.title ≠ "" then acc ++ "\n" ++ a.title
      else if a.fallback ≠ "" then acc ++ "\n" ++ a.fallback
      else acc)
    e.text

/-- The fields of a Slack user-info object consulted when resolving the
reporter name; absent fields are `""`. -/
structure UserInfo where
  real_name : String := ""
  profile_real_name : String := ""
  profile_display_name : String := ""
  username : String := ""
  deriving DecidableEq, Repr

/-- The name-field fallback chain over a fetched user-info object
(`real_name` → `profile.real_name` → `profile.display_name` → `name`); each
guard is JS truthiness of the field and of its trimmed form.  `username`
embeds the JS field `name`. -/
def nameFromUser : Option UserInfo → String
  | none => "Unknown"
  | some u =>
    if jsTrim u.real_name ≠ "" then u.real_name
    else if jsTrim u.profile_real_name ≠ "" then u.profile_real_name
    else if jsTrim u.profile_display_name ≠ "" then u.profile_display_name
    else if jsTrim u.username ≠ "" then u.username
    else "Unknown"

/-- The forwarded-message fallback loop: the first attachment with an
`author_name` wins (the loop breaks); a `from_url` regex capture updates the
running name without breaking. -/
def nameFromAttachments : List Attachment → String → String
  | [], r => r
  | a :: rest, r =>
    if a.author_name ≠ "" then a.author_name
    else
      match a.from_url_cid with
      | some cid => nameFromAttachments rest cid
      | none => nameFromAttachments rest r

/-- The deterministic outcomes of the remote calls `processFeedbackMessage`
makes for the message at hand: the model's reply per analyzed text
(`claude`), `slackClient.getUserInfo` (`none` covers both a `null` result and
a caught error), and `slackClient.getMessagePermalink` (which catches its own
errors and returns `null`). -/
structure IngestEnv where
  claude : String → ClaudeOutcome
  userInfo : Option UserInfo := none
  permalink : Option String := none

/-- Reporter-name resolution in `processFeedbackMessage`. -/
def resolveReporterName (env : IngestEnv) (e : SlackEvent) : String :=
  let r1 := if e.user ≠ "" then nameFromUser env.userInfo else "Unknown"
  if r1 = "Unknown" ∧ e.attachments ≠ [] then nameFromAttachments e.attachments r1 else r1

/-- The internal message object `processFeedbackMessage` builds. -/
def mkIngestMsg (e : SlackEvent) : Msg :=
  { text := jsTrim (flattenText e), userId := e.user, channelId := e.channel,
    channelName := "feedback", ts := e.ts, permalink := none }

/-- What one run of the ingestion path produced: the store afterwards and the
`sendApprovalMessage` calls it made (the item passed — with `messageLink`
attached when a permalink was resolved — and the candidate key). -/
structure IngestResult where
  state : HandlerState
  prompts : List (Feedback × String)
  deriving Repr

/-- The `for (const item of feedbackArray)` loop: derive the candidate key,
prepend the reporter to the description, register the candidate (which stores
a spread copy), then attach the permalink to the local item (JS truthiness:
only a nonempty permalink) and post the approval prompt. -/
def ingestLoop (env : IngestEnv) (reporterName messageTs : String) (now : Int) :
    HandlerState → List Feedback → HandlerState × List (Feedback × String)
  | s, [] => (s, [])
  | s, item :: rest =>
    let messageId := "msg_" ++ replaceDot messageTs
    let item1 : Feedback :=
      { item with description := "Task requested by " ++ reporterName ++ "\n\n" ++ item.description }
    let s1 := addPendingApproval s now messageId item1
    let item2 : Feedback :=
      match env.permalink with
      | some p => if p ≠ "" then { item1 with messageLink := some p } else item1
      | none => item1
    let r := ingestLoop env reporterName messageTs now s1 rest
    (r.1, (item2, messageId) :: r.2)

/-- `InteractiveServer.processFeedbackMessage(event)`: skip if already
processed; flatten the text and skip (without marking) if it is empty or
whitespace-only; analyze; if actionable, resolve the reporter, register each
item and post its approval prompt; finally mark the message processed. -/
def processFeedbackMessage (env : IngestEnv) (s : HandlerState) (e : SlackEvent)
    (now : Int) : IngestResult :=
  if isProcessed s e.ts = true then { state := s, prompts := [] }
  else if flattenText e = "" ∨ jsTrim (flattenText e) = "" then { state := s, prompts := [] }
  else
    let feedbackArray := analyzeBatch env.claude [mkIngestMsg e]
    if feedbackArray.length = 0 then
      { state := markAsProcessed s now e.ts, prompts := [] }
    else
      let r := ingestLoop env (resolveReporterName env e) e.ts now s feedbackArray
      { state := markAsProcessed r.1 now e.ts, prompts := r.2 }

/-- A created Notion page, as far as the resolution path inspects it. -/
structure NotionTask where
  id : String
  deriving DecidableEq, Repr

/-- The task payload `handleApproval` builds for `notionClient.createTask`
(matching the scheduler's format); `ttype` embeds the JS field `type`. -/
structure TaskData where
  title : String
  description : String
  priority : String
  ttype : String
  messageLink : Option String
  dueDate : Option String
  deriving DecidableEq, Repr

/-- `x || null` on an optional string: a missing or empty (falsy) string
becomes `null`. -/
def jsOrNull : Option String → Option String
  | some s => if s = "" then none else some s
  | none => none

/-- The follow-up chat messages the resolution path sends through
`sendSlackUpdate` (recording only the payload the claims are about). -/
inductive SlackUpdate where
  | taskCreated (title : String) (notionId : String)
  | taskCreateFailed
  | feedbackRejected
  deriving DecidableEq, Repr

/-- What one run of a resolution-path handler produced: the store afterwards,
the payloads passed to `notionClient.createTask`, and the `sendSlackUpdate`
calls made. -/
structure ResolutionResult where
  state : HandlerState
  taskCreateCalls : List TaskData
  updates : List SlackUpdate
  deriving DecidableEq, Repr

/-- `InteractiveServer.handleApproval(messageId, triggerId, responseUrl)`:
return if no record is found; mark approved; build the task payload and call
`createTask` — `createTaskResult` is that call's outcome (`Except.error` for a
throw, and `NotionClient.createTask` rethrows its errors; `.ok none` for a
falsy page).  On success remove the record and, when a `responseUrl` exists,
confirm; on a throw leave the record and, when a `responseUrl` exists, send
the failure notice. -/
def handleApproval (createTaskResult : Except Unit (Option NotionTask))
    (s : HandlerState) (now : Int) (messageId : String)
    (responseUrl : Option String) : ResolutionResult :=
  match getPendingApproval s messageId with
  | none => { state := s, taskCreateCalls := [], updates := [] }
  | some _ =>
    match approveFeedback s now messageId none with
    | (none, s1) => { state := s1, taskCreateCalls := [], updates := [] }
    | (some af, s1) =>
      let taskData : TaskData :=
        { title := af.title, description := af.description, priority := af.priority,
          ttype := af.ftype, messageLink := jsOrNull af.messageLink,
          dueDate := jsOrNull af.dueDate }
      match createTaskResult with
      | .error _ =>
        { state := s1, taskCreateCalls := [taskData],
          updates := if responseUrl.isSome then [.taskCreateFailed] else [] }
      | .ok none => { state := s1, taskCreateCalls := [taskData], updates := [] }
      | .ok (some task) =>
        { state := removePendingApproval s1 now messageId,
          taskCreateCalls := [taskData],
          updates := if responseUrl.isSome then [.taskCreated taskData.title task.id] else [] }

/-- `InteractiveServer.handleRejection(messageId, triggerId, responseUrl)`:
return if no record is found; mark rejected; when a `responseUrl` exists,
send the rejection confirmation.  No task is created. -/
def handleRejection (s : HandlerState) (now : Int) (messageId : String)
    (responseUrl : Option String) : ResolutionResult :=
  match getPendingApproval s messageId with
  | none => { state := s, taskCreateCalls := [], updates := [] }
  | some _ =>
    { state := (rejectFeedback s now messageId).2, taskCreateCalls := [],
      updates := if responseUrl.isSome then [.feedbackRejected] else [] }

/-! ### Concrete instances used by witnesses and counterexamples -/

/-- A candidate already resolved as rejected but still present in the map. -/
def c2fb : Feedback :=
  { ftype := "bug", title := "Mobile search broken", description := "desc",
    priority := "High Priority", status := some "rejected",
    createdAt := some 0, rejectedAt := some 0 }

/-- A store holding only the rejected candidate `c2fb`. -/
def c2store : HandlerState := { pendingApprovals := [("msg_1_2", c2fb)] }

/-- A registered pending candidate. -/
def c3fb : Feedback :=
  { ftype := "bug", title := "Mobile search broken", description := "desc",
    priority := "High Priority", status := some "pending", createdAt := some 0 }

/-- A store holding only the pending candidate `c3fb`. -/
def c3store : HandlerState := { pendingApprovals := [("msg_1_2", c3fb)] }

/-- An environment in which the model API call throws (transient failure). -/
def c4env : IngestEnv := { claude := fun _ => ClaudeOutcome.apiError }

/-- A plain message event with nonempty text. -/
def c4event : SlackEvent :=
  { text := "The search feature is broken on mobile", user := "U1",
    channel := "C1", ts := "111.222" }

/-- A pending candidate created at epoch time 0. -/
def c6fb : Feedback :=
  { ftype := "bug", title := "Old candidate", description := "desc",
    priority := "Low Priority", status := some "pending", createdAt := some 0 }

/-- A store holding only the aged-out candidate `c6fb`, with a processed set. -/
def c6store : HandlerState :=
  { pendingApprovals := [("msg_9_9", c6fb)], processedMessages := ["9.9"] }

/-- A store with two candidates and two processed messages. -/
def c7store : HandlerState :=
  { pendingApprovals := [("msg_1_2", c3fb), ("msg_3_4", c2fb)],
    processedMessages := ["1.2", "3.4"] }

/-- An environment whose model reply is actionable feedback and in which a
permalink is resolved. -/
def c9env : IngestEnv :=
  { claude := fun _ => ClaudeOutcome.reply true (some
      { isFeedback := true, ftype := "bug", title := "Mobile search broken",
        description := "desc", priority := "High Priority", confidence := 85 }),
    permalink := some "https://slack.example/p1" }

/-- A plain message event with nonempty text. -/
def c9event : SlackEvent :=
  { text := "The search feature is broken on mobile", user := "U1",
    channel := "C1", ts := "111.222" }

/-- The single approval prompt the ingestion of `c9event` posts. -/
def c9prompt : Feedback × String :=
  ((processFeedbackMessage c9env {} c9event 5).prompts).headD (default, "")

/-- An environment whose model judges the message as not feedback. -/
def c10env : IngestEnv :=
  { claude := fun _ => ClaudeOutcome.reply true (some
      { isFeedback := false, ftype := "other", title := "", description := "",
        priority := "Low Priority", confidence := 10 }) }

/-- A message event whose flattened text is whitespace-only. -/
def c10eventBlank : SlackEvent :=
  { text := "   ", user := "U1", channel := "C1", ts := "333.444" }

/-- A message event with real text (judged not-feedback by `c10env`). -/
def c10eventText : SlackEvent :=
  { text := "hello world team", user := "U1", channel := "C1", ts := "333.444" }

/-! ### Helper lemmas about the JS collection models -/

theorem jsMapGet_jsMapSet_self (m : List (String × Feedback)) (k : String) (v : Feedback) :
    jsMapGet (jsMapSet m k v) k = some v := by
  induction m with
  | nil => simp [jsMapSet, jsMapGet]
  | cons p rest ih =>
    by_cases h : p.1 = k
    · simp [jsMapSet, jsMapGet, h]
    · simp [jsMapSet, jsMapGet, h, ih]

theorem jsSetMem_append (l1 l2 : List String) (x : String) :
    jsSetMem (l1 ++ l2) x = (jsSetMem l1 x || jsSetMem l2 x) := by
  induction l1 with
  | nil => simp [jsSetMem]
  | cons y rest ih =>
    by_cases h : y = x
    · simp [jsSetMem, h]
    · simp [jsSetMem, h, ih]

theorem jsSetMem_jsSetAdd_self (l : List String) (x : String) :
    jsSetMem (jsSetAdd l x) x = true := by
  by_cases h : jsSetMem l x
  · simp [jsSetAdd, h]
  · simp only [jsSetAdd, h, if_neg, Bool.false_eq_true, if_false, jsSetMem_append]
    simp [jsSetMem]

theorem isProcessed_markAsProcessed (s : HandlerState) (now : Int) (ts : String) :
    isProcessed (markAsProcessed s now ts) ts = true := by
  simp [isProcessed, markAsProcessed, saveData, jsSetMem_jsSetAdd_self]

theorem jsMapGet_eq_none_of_not_mem (m : List (String × Feedback)) (k : String)
    (h : k ∉ m.map Prod.fst) : jsMapGet m k = none := by
  induction m with
  | nil => simp [jsMapGet]
  | cons p rest ih =>
    simp only [List.map_cons, List.mem_cons] at h
    push_neg at h
    have hp : ¬ p.1 = k := fun he => h.1 he.symm
    simp [jsMapGet, hp, ih h.2]

theorem jsMapSet_eq_append (m : List (String × Feedback)) (k : String) (v : Feedback)
    (h : jsMapGet m k = none) : jsMapSet m k v = m ++ [(k, v)] := by
  induction m with
  | nil => simp [jsMapSet]
  | cons p rest ih =>
    by_cases hp : p.1 = k
    · simp [jsMapGet, hp] at h
    · simp only [jsMapGet, hp, if_neg, if_false] at h
      simp [jsMapSet, hp, ih h]

theorem jsSetAdd_eq_append (l : List String) (x : String)
    (h : x ∉ l) : jsSetAdd l x = l ++ [x] := by
  have hm : jsSetMem l x = false := by
    induction l with
    | nil => simp [jsSetMem]
    | cons y rest ih =>
      simp only [List.mem_cons] at h
      push_neg at h
      have hy : ¬ y = x := fun he => h.1 he.symm
      simp [jsSetMem, hy, ih h.2]
  simp [jsSetAdd, hm]

theorem jsMapOfList_foldl (l : List (String × Feedback)) :
    ∀ acc, ((acc ++ l).map Prod.fst).Nodup →
      l.foldl (fun m p => jsMapSet m p.1 p.2) acc = acc ++ l := by
  induction l with
  | nil => intro acc _; simp
  | cons p rest ih =>
    intro acc h
    have h' := h
    have hmap : ((acc ++ p :: rest).map Prod.fst)
        = acc.map Prod.fst ++ p.1 :: rest.map Prod.fst := by simp
    rw [hmap, List.nodup_append] at h'
    have hkey : p.1 ∉ acc.map Prod.fst := fun hmem =>
      h'.2.2 hmem (List.mem_cons_self _ _)
    have hset : jsMapSet acc p.1 p.2 = acc ++ [p] := by
      have hs := jsMapSet_eq_append acc p.1 p.2 (jsMapGet_eq_none_of_not_mem _ _ hkey)
      simpa using hs
    have hrec : (acc ++ [p]) ++ rest = acc ++ p :: rest := by simp
    rw [List.foldl_cons, hset, ih (acc ++ [p]) (by rw [hrec]; exact h)]
    simp

theorem jsMapOfList_id (l : List (String × Feedback))
    (h : (l.map Prod.fst).Nodup) : jsMapOfList l = l := by
  have := jsMapOfList_foldl l [] (by simpa using h)
  simpa [jsMapOfList] using this

theorem jsSetOfList_foldl (l : List String) :
    ∀ acc, (acc ++ l).Nodup → l.foldl jsSetAdd acc = acc ++ l := by
  induction l with
  | nil => intro acc _; simp
  | cons x rest ih =>
    intro acc h
    have h' := h
    rw [List.nodup_append] at h'
    have hx : x ∉ acc := fun hmem => h'.2.2 hmem (List.mem_cons_self _ _)
    have hadd : jsSetAdd acc x = acc ++ [x] := jsSetAdd_eq_append acc x hx
    have hrec : (acc ++ [x]) ++ rest = acc ++ x :: rest := by simp
    rw [List.foldl_cons, hadd, ih (acc ++ [x]) (by rw [hrec]; exact h)]
    simp

theorem jsSetOfList_id (l : List String) (h : l.Nodup) : jsSetOfList l = l := by
  have := jsSetOfList_foldl l [] (by simpa using h)
  simpa [jsSetOfList] using this

/-! ### Claim theorems -/

/-- C5: for every key `k` not present in the candidate map, `approveFeedback`
and `rejectFeedback` each return `null` and leave the whole handler state —
candidate map, processed set, and persisted snapshot — unchanged (no persist
happens). -/
theorem c5_absent_key_is_noop (s : HandlerState) (now : Int) (k : String)
    (u : Option Updates) (h : getPendingApproval s k = none) :
    approveFeedback s now k u = (none, s) ∧ rejectFeedback s now k = (none, s) := by
  have h' : jsMapGet s.pendingApprovals k = none := h
  unfold approveFeedback rejectFeedback
  rw [h']
  exact ⟨rfl, rfl⟩

theorem c5_witness :
    getPendingApproval ({} : HandlerState) "k0" = none ∧
    (approveFeedback {} 0 "k0" none = (none, {}) ∧ rejectFeedback {} 0 "k0" = (none, {})) :=
  ⟨rfl, c5_absent_key_is_noop {} 0 "k0" none rfl⟩

/-- C2 counterexample: the claim says an approve click on an
already-resolved candidate changes nothing and triggers no task creation;
but for the rejected-yet-still-stored candidate `c2fb`, `handleApproval`
calls `createTask` and overwrites the stored record (its status becomes
`approved`). -/
theorem c2_counterexample :
    (handleApproval (Except.error ()) c2store 1 "msg_1_2" none).taskCreateCalls ≠ [] ∧
    getPendingApproval (handleApproval (Except.error ()) c2store 1 "msg_1_2" none).state "msg_1_2" ≠
      getPendingApproval c2store "msg_1_2" := by
  decide

/-- C2 amended: re-entering the resolution path is a state-machine no-op
exactly when the candidate's key is no longer in the store (as after an
approval whose task creation succeeded and removed it): the stored state is
unchanged, no task creation is called, and no follow-up is sent.  A
candidate still stored in state `approved` or `rejected` is re-processed
(see the counterexample). -/
theorem c2_removed_key_resolution_noop (ct : Except Unit (Option NotionTask))
    (s : HandlerState) (now : Int) (k : String) (url : Option String)
    (h : getPendingApproval s k = none) :
    handleApproval ct s now k url = { state := s, taskCreateCalls := [], updates := [] } ∧
    handleRejection s now k url = { state := s, taskCreateCalls := [], updates := [] } := by
  unfold handleApproval handleRejection
  rw [h]
  exact ⟨rfl, rfl⟩

theorem c2_witness :
    getPendingApproval ({} : HandlerState) "msg_gone" = none ∧
    (handleApproval (Except.ok (some ⟨"page1"⟩)) {} 7 "msg_gone" (some "u") =
        { state := {}, taskCreateCalls := [], updates := [] } ∧
     handleRejection {} 7 "msg_gone" (some "u") =
        { state := {}, taskCreateCalls := [], updates := [] }) :=
  ⟨rfl, c2_removed_key_resolution_noop (Except.ok (some ⟨"page1"⟩)) {} 7 "msg_gone" (some "u") rfl⟩

/-- C3: for a stored pending candidate, an approve click whose task creation
throws leaves the candidate present in state `approved` (not removed), and
the failure notice is sent because a response URL was supplied. -/
theorem c3_approve_then_failing_task (s : HandlerState) (now : Int) (k : String)
    (fb : Feedback) (url : String)
    (hget : getPendingApproval s k = some fb) (_hpending : fb.status = some "pending") :
    (∃ c, getPendingApproval (handleApproval (Except.error ()) s now k (some url)).state k = some c
        ∧ c.status = some "approved") ∧
    (handleApproval (Except.error ()) s now k (some url)).updates = [SlackUpdate.taskCreateFailed] ∧
    (handleApproval (Except.error ()) s now k (some url)).taskCreateCalls.length = 1 := by
  have h' : jsMapGet s.pendingApprovals k = some fb := hget
  unfold handleApproval
  rw [hget]
  unfold approveFeedback
  rw [h']
  refine ⟨⟨{ fb with status := some "approved", approvedAt := some now }, ?_, rfl⟩, rfl, rfl⟩
  simp [getPendingApproval, saveData, jsMapGet_jsMapSet_self, mergeUpdates]

theorem c3_witness :
    getPendingApproval c3store "msg_1_2" = some c3fb ∧
    ((∃ c, getPendingApproval (handleApproval (Except.error ()) c3store 3 "msg_1_2" (some "u")).state "msg_1_2" = some c
        ∧ c.status = some "approved") ∧
     (handleApproval (Except.error ()) c3store 3 "msg_1_2" (some "u")).updates = [SlackUpdate.taskCreateFailed] ∧
     (handleApproval (Except.error ()) c3store 3 "msg_1_2" (some "u")).taskCreateCalls.length = 1) :=
  ⟨rfl, c3_approve_then_failing_task c3store 3 "msg_1_2" c3fb "u" rfl rfl⟩

/-- C6 counterexample: sweeping `c6store` at a time 8 days past the
candidate's creation removes that candidate, yet the operation's return
value is `undefined` (modelled `none`), not the removed count 1: the
`clearOldApprovals` body has no `return` statement and only logs the count. -/
theorem c6_counterexample :
    (clearOldApprovals c6store (8 * 24 * 60 * 60 * 1000) 7).1.pendingApprovals = [] ∧
    (clearOldApprovals c6store (8 * 24 * 60 * 60 * 1000) 7).2 ≠ some 1 := by
  decide

/-- C6 amended: `clearOldApprovals(days)` deletes exactly the candidates
whose `createdAt` is strictly older than `now - days` days — regardless of
their state — leaves every other candidate and the processed-message set
untouched, and returns nothing (`undefined`); the removed count is only
logged. -/
theorem c6_sweep_filters_returns_nothing (s : HandlerState) (now days : Int) :
    (clearOldApprovals s now days).1.pendingApprovals =
      s.pendingApprovals.filter
        (fun p => !(isOlderThan (now - days * 24 * 60 * 60 * 1000) p.2)) ∧
    (clearOldApprovals s now days).1.processedMessages = s.processedMessages ∧
    (clearOldApprovals s now days).2 = none := by
  refine ⟨?_, ?_, rfl⟩ <;>
    · simp only [clearOldApprovals]
      split <;> simp [saveData]

/-- C7: saving the store snapshot and reloading it reproduces the candidate
map and the processed set exactly (JS `Map`/`Set` iteration order and
contents are preserved by `entries()`/`Array.from` and rebuilt by the
constructors, whose keys and elements are unique in any state a handler
reaches). -/
theorem c7_snapshot_roundtrip (s : HandlerState) (now : Int)
    (hkeys : (s.pendingApprovals.map Prod.fst).Nodup)
    (hproc : s.processedMessages.Nodup) :
    loadData (saveData s now).savedSnapshot = (s.pendingApprovals, s.processedMessages) := by
  simp [saveData, loadData, jsMapOfList_id _ hkeys, jsSetOfList_id _ hproc]

theorem c7_witness :
    ((c7store.pendingApprovals.map Prod.fst).Nodup ∧ c7store.processedMessages.Nodup) ∧
    loadData (saveData c7store 11).savedSnapshot =
      (c7store.pendingApprovals, c7store.processedMessages) :=
  ⟨⟨by decide, by decide⟩, c7_snapshot_roundtrip c7store 11 (by decide) (by decide)⟩

/-- C8: the analyzer returns a structured judgment exactly when the model
reply was a text block whose cleaned body parsed to a structure with
`isFeedback` true and `confidence ≥ 60`; in every other case — API throw,
non-text reply, unparsable output, `isFeedback` false, or low confidence —
it fails closed with `null` (the function is total: nothing escapes to the
caller). -/
theorem c8_judge_iff (outcome : ClaudeOutcome) (message src : String) :
    (analyzeFeedback outcome message src).isSome = true ↔
      ∃ f, outcome = ClaudeOutcome.reply true (some f) ∧
        f.isFeedback = true ∧ 60 ≤ f.confidence := by
  cases outcome with
  | apiError => simp [analyzeFeedback]
  | reply isText parsed =>
    cases isText with
    | false => simp [analyzeFeedback]
    | true =>
      cases parsed with
      | none => simp [analyzeFeedback]
      | some f =>
        by_cases hc : f.isFeedback = true ∧ 60 ≤ f.confidence
        · simp [analyzeFeedback, hc, hc.1, hc.2]
        · have hnone : analyzeFeedback (ClaudeOutcome.reply true (some f)) message src = none := by
            simp [analyzeFeedback, hc]
          rw [hnone]
          simp only [Option.isSome_none, Bool.false_eq_true, false_iff]
          rintro ⟨g, hg, hgf, hgc⟩
          injection hg with h1 h2
          injection h2 with h3
          subst h3
          exact hc ⟨hgf, hgc⟩

/-- The analyzer never sets `messageLink`: a positive judgment is built from
the parsed JSON fields plus `sourceName` only. -/
theorem analyzeFeedback_messageLink (outcome : ClaudeOutcome) (m sn : String)
    (r : Feedback) (h : analyzeFeedback outcome m sn = some r) : r.messageLink = none := by
  cases outcome with
  | apiError => simp [analyzeFeedback] at h
  | reply isText parsed =>
    cases isText with
    | false => simp [analyzeFeedback] at h
    | true =>
      cases parsed with
      | none => simp [analyzeFeedback] at h
      | some f =>
        by_cases hc : f.isFeedback = true ∧ 60 ≤ f.confidence
        · simp [analyzeFeedback, hc] at h
          rw [← h]
        · simp [analyzeFeedback, hc] at h

/-- Approving a stored candidate whose record carries no `messageLink` always
passes `messageLink: null` in the task payload. -/
theorem handleApproval_taskCalls_messageLink (ct : Except Unit (Option NotionTask))
    (S : HandlerState) (now2 : Int) (k : String) (url : Option String) (c : Feedback)
    (hget : getPendingApproval S k = some c) (hml : c.messageLink = none) :
    ∀ td ∈ (handleApproval ct S now2 k url).taskCreateCalls, td.messageLink = none := by
  have h' : jsMapGet S.pendingApprovals k = some c := hget
  unfold handleApproval
  rw [hget]
  unfold approveFeedback
  rw [h']
  cases ct with
  | error u =>
    intro td htd
    simp only [List.mem_singleton] at htd
    subst htd
    simp [mergeUpdates, jsOrNull, hml]
  | ok o =>
    cases o with
    | none =>
      intro td htd
      simp only [List.mem_singleton] at htd
      subst htd
      simp [mergeUpdates, jsOrNull, hml]
    | some task =>
      intro td htd
      simp only [List.mem_singleton] at htd
      subst htd
      simp [mergeUpdates, jsOrNull, hml]

/-- Looking up a freshly registered candidate after the final
`markAsProcessed` returns its stored (stamped) record. -/
theorem getPendingApproval_add_mark (s : HandlerState) (now now2 : Int) (k ts : String)
    (fb : Feedback) :
    getPendingApproval (markAsProcessed (addPendingApproval s now k fb) now2 ts) k =
      some { fb with createdAt := some now, status := some "pending" } := by
  simp [getPendingApproval, markAsProcessed, addPendingApproval, saveData,
    jsMapGet_jsMapSet_self]

/-- C1: running the ingestion path twice in sequence on the same message
posts at most one approval prompt in total: the second run leaves the store
exactly as the first run left it and posts nothing (it returns at the
`isProcessed` check — or, for a message skipped for empty text, at the
empty-text check — without analyzing, registering, or posting), and whenever
the first run posted a prompt it also marked the message processed. -/
theorem c1_ingestion_idempotent (env : IngestEnv) (s : HandlerState) (e : SlackEvent)
    (now1 now2 : Int) :
    (processFeedbackMessage env s e now1).prompts.length +
      (processFeedbackMessage env (processFeedbackMessage env s e now1).state e now2).prompts.length ≤ 1 ∧
    (processFeedbackMessage env (processFeedbackMessage env s e now1).state e now2).state =
      (processFeedbackMessage env s e now1).state ∧
    (processFeedbackMessage env (processFeedbackMessage env s e now1).state e now2).prompts = [] ∧
    ((processFeedbackMessage env s e now1).prompts ≠ [] →
      isProcessed (processFeedbackMessage env s e now1).state e.ts = true) := by
  by_cases h1 : isProcessed s e.ts = true
  · simp [processFeedbackMessage, h1]
  · by_cases h2 : flattenText e = "" ∨ jsTrim (flattenText e) = ""
    · simp [processFeedbackMessage, h1, h2]
    · cases hA : analyzeFeedback (env.claude (mkIngestMsg e).text) (mkIngestMsg e).text
          ("#" ++ (mkIngestMsg e).channelName) with
      | none =>
        simp [processFeedbackMessage, h1, h2, analyzeBatch, hA, isProcessed_markAsProcessed]
      | some r =>
        simp [processFeedbackMessage, h1, h2, analyzeBatch, hA, ingestLoop,
          isProcessed_markAsProcessed]

theorem c1_witness :
    (processFeedbackMessage c9env {} c9event 5).prompts.length +
      (processFeedbackMessage c9env (processFeedbackMessage c9env {} c9event 5).state c9event 6).prompts.length ≤ 1 ∧
    (processFeedbackMessage c9env (processFeedbackMessage c9env {} c9event 5).state c9event 6).state =
      (processFeedbackMessage c9env {} c9event 5).state ∧
    (processFeedbackMessage c9env (processFeedbackMessage c9env {} c9event 5).state c9event 6).prompts = [] ∧
    ((processFeedbackMessage c9env {} c9event 5).prompts ≠ [] →
      isProcessed (processFeedbackMessage c9env {} c9event 5).state c9event.ts = true) :=
  c1_ingestion_idempotent c9env {} c9event 5 6

/-- C4 counterexample: for the concrete message `c4event` whose model API
call throws (`c4env`), the ingestion path does mutate state — the message is
marked processed — contradicting "no state mutation / not marked processed /
eligible for retry". -/
theorem c4_counterexample :
    isProcessed (processFeedbackMessage c4env {} c4event 0).state "111.222" = true ∧
    (processFeedbackMessage c4env {} c4event 0).state ≠ ({} : HandlerState) := by
  decide

/-- C4 amended: a transient model-API failure is caught inside the
extractor, which returns `null` exactly as for "not feedback"; the ingestion
path then completes, posts nothing, registers nothing, and — as its final
step — marks the message processed, so the message is NOT eligible for
re-analysis on redelivery. -/
theorem c4_transient_failure_marks_processed (env : IngestEnv) (s : HandlerState)
    (e : SlackEvent) (now : Int)
    (hfail : env.claude (jsTrim (flattenText e)) = ClaudeOutcome.apiError)
    (h1 : isProcessed s e.ts = false)
    (h2 : ¬(flattenText e = "" ∨ jsTrim (flattenText e) = "")) :
    processFeedbackMessage env s e now = { state := markAsProcessed s now e.ts, prompts := [] } ∧
    isProcessed (processFeedbackMessage env s e now).state e.ts = true ∧
    (processFeedbackMessage env s e now).state.pendingApprovals = s.pendingApprovals := by
  have hA : analyzeFeedback (env.claude (mkIngestMsg e).text) (mkIngestMsg e).text
      ("#" ++ (mkIngestMsg e).channelName) = none := by
    have hmt : (mkIngestMsg e).text = jsTrim (flattenText e) := rfl
    rw [hmt, hfail]
    rfl
  have hm : jsSetMem s.processedMessages e.ts = false := h1
  refine ⟨?_, ?_, ?_⟩ <;>
    simp [processFeedbackMessage, h2, analyzeBatch, hA, markAsProcessed,
      saveData, isProcessed, hm, jsSetMem_jsSetAdd_self]

theorem c4_witness :
    processFeedbackMessage c4env {} c4event 0 =
      { state := markAsProcessed {} 0 c4event.ts, prompts := [] } ∧
    isProcessed (processFeedbackMessage c4env {} c4event 0).state c4event.ts = true ∧
    (processFeedbackMessage c4env {} c4event 0).state.pendingApprovals =
      ({} : HandlerState).pendingApprovals :=
  c4_transient_failure_marks_processed c4env {} c4event 0 rfl rfl (by decide)

/-- C9: when a permalink is resolved during ingestion, the prompt-posting
call receives the feedback item with that permalink attached, but the stored
candidate — registered from a spread copy taken before the permalink was
assigned to the local item — has no `messageLink`; consequently every task
payload a later approve click builds for this candidate carries
`messageLink: null`. -/
theorem c9_permalink_not_in_store (env : IngestEnv) (s : HandlerState) (e : SlackEvent)
    (now : Int) (p : String) (hp : env.permalink = some p) (hpe : p ≠ "")
    (pr : Feedback × String) (hmem : pr ∈ (processFeedbackMessage env s e now).prompts) :
    pr.1.messageLink = some p ∧
    (∃ c, getPendingApproval (processFeedbackMessage env s e now).state pr.2 = some c ∧
        c.messageLink = none) ∧
    (∀ ct now2 url td,
        td ∈ (handleApproval ct (processFeedbackMessage env s e now).state now2 pr.2 url).taskCreateCalls →
        td.messageLink = none) := by
  by_cases h1 : isProcessed s e.ts = true
  · simp [processFeedbackMessage, h1] at hmem
  · by_cases h2 : flattenText e = "" ∨ jsTrim (flattenText e) = ""
    · simp [processFeedbackMessage, h1, h2] at hmem
    · cases hA : analyzeFeedback (env.claude (mkIngestMsg e).text) (mkIngestMsg e).text
          ("#" ++ (mkIngestMsg e).channelName) with
      | none => simp [processFeedbackMessage, h1, h2, analyzeBatch, hA] at hmem
      | some r =>
        have hml : r.messageLink = none := analyzeFeedback_messageLink _ _ _ _ hA
        simp [processFeedbackMessage, h1, h2, analyzeBatch, hA, ingestLoop, hp, hpe] at hmem ⊢
        subst hmem
        refine ⟨rfl, ⟨_, getPendingApproval_add_mark s now now ("msg_" ++ replaceDot e.ts) e.ts _, by simp [hml]⟩, ?_⟩
        intro ct now2 url td htd
        exact handleApproval_taskCalls_messageLink ct _ now2 _ url _
          (getPendingApproval_add_mark s now now ("msg_" ++ replaceDot e.ts) e.ts _) (by simp [hml]) td htd

theorem c9_witness :
    c9prompt.1.messageLink = some "https://slack.example/p1" ∧
    (∃ c, getPendingApproval (processFeedbackMessage c9env {} c9event 5).state c9prompt.2 = some c ∧
        c.messageLink = none) ∧
    (∀ ct now2 url td,
        td ∈ (handleApproval ct (processFeedbackMessage c9env {} c9event 5).state now2 c9prompt.2 url).taskCreateCalls →
        td.messageLink = none) :=
  c9_permalink_not_in_store c9env {} c9event 5 "https://slack.example/p1" rfl (by decide)
    c9prompt (by decide)

/-- C10: a message whose flattened text is empty or whitespace-only is skipped
before any mutation — the whole store is returned unchanged and the message is
NOT marked processed, so a redelivery re-enters ingestion — whereas a message
with real text that the extractor judges "not feedback" ends its run marked
processed. -/
theorem c10_whitespace_skip_vs_notfeedback_mark :
    (∀ (env : IngestEnv) (s : HandlerState) (e : SlackEvent) (now : Int),
        jsTrim (flattenText e) = "" →
        processFeedbackMessage env s e now = { state := s, prompts := [] }) ∧
    (∀ (env : IngestEnv) (s : HandlerState) (e : SlackEvent) (now : Int),
        isProcessed s e.ts = false →
        ¬(flattenText e = "" ∨ jsTrim (flattenText e) = "") →
        analyzeFeedback (env.claude (jsTrim (flattenText e))) (jsTrim (flattenText e)) "#feedback" = none →
        (processFeedbackMessage env s e now).state = markAsProcessed s now e.ts ∧
        isProcessed (processFeedbackMessage env s e now).state e.ts = true) := by
  constructor
  · intro env s e now h
    by_cases h1 : isProcessed s e.ts = true
    · simp [processFeedbackMessage, h1]
    · simp [processFeedbackMessage, h1, h]
  · intro env s e now h1 h2 h3
    have hA : analyzeFeedback (env.claude (mkIngestMsg e).text) (mkIngestMsg e).text
        ("#" ++ (mkIngestMsg e).channelName) = none := h3
    have hm : jsSetMem s.processedMessages e.ts = false := h1
    constructor <;>
      simp [processFeedbackMessage, h2, analyzeBatch, hA, markAsProcessed, saveData,
        isProcessed, hm, jsSetMem_jsSetAdd_self]

theorem c10_witness :
    processFeedbackMessage c10env {} c10eventBlank 0 = { state := {}, prompts := [] } ∧
    isProcessed (processFeedbackMessage c10env {} c10eventText 0).state c10eventText.ts = true :=
  ⟨c10_whitespace_skip_vs_notfeedback_mark.1 c10env {} c10eventBlank 0 (by decide),
   (c10_whitespace_skip_vs_notfeedback_mark.2 c10env {} c10eventText 0 rfl (by decide) (by decide)).2⟩

end SlackBot
